import Mathlib

/-!
Verification of the trafficSimulator core against its specification.

Shallow embedding conventions:
* Python floats are modelled as exact rationals (`ℚ`).
* `np.sqrt(self.a_max * self.b_max)` is the single irrational operation in the
  dynamics; it is modelled by the vehicle field `sab`, which stands for the
  value `sqrt(a_max * b_max)` computed once per vehicle.  (In counterexamples
  we pick `a_max * b_max` a perfect square so `sab` is the exact root.)
* Python's total `dict` lookups are modelled by a total table `ℕ → Vehicle`
  (the source assumes every id on a segment queue is present in the table).
* Division is total on `ℚ` (`q / 0 = 0`); the source divides by `self.a` only
  when `v + a*dt < 0` with `v ≥ 0`, which forces `a < 0`, so the totalization
  is never exercised under the documented invariants.
* `random`/`uuid` draws happen at construction time only; the embedded
  operations take the already-constructed vehicles as inputs, and the
  generator's stochastic draws are supplied as oracle streams.
-/

/-- State of one vehicle (`Vehicle.__init__` / `_initialize_defaults`).
`sab` models the value `np.sqrt(a_max * b_max)` used by the IDM formula. -/
structure Vehicle where
  id : ℕ
  l : ℚ
  s0 : ℚ
  T : ℚ
  v_max : ℚ
  a_max : ℚ
  b_max : ℚ
  sab : ℚ
  path : List ℕ
  current_road_index : ℕ
  x : ℚ
  v : ℚ
  a : ℚ
  stopped : Bool
  departure_time : Option ℚ
  arrival_time : Option ℚ
  lane : ℤ
  lane_change_timer : ℚ
  lane_change_cooldown : ℚ
  deriving Repr, DecidableEq

/-- Projected velocity `new_v = self.v + self.a * dt` (vehicle.py line 62). -/
def projectedV (veh : Vehicle) (dt : ℚ) : ℚ := veh.v + veh.a * dt

/-- The kinematic position update of `Vehicle.update` (vehicle.py lines 62-67):
`x - 0.5*v**2/a` when the projected velocity is negative, else
`x + v*dt + 0.5*a*dt*dt`. -/
def kinematicX (veh : Vehicle) (dt : ℚ) : ℚ :=
  if projectedV veh dt < 0 then veh.x - veh.v ^ 2 / (2 * veh.a)
  else veh.x + veh.v * dt + veh.a * dt * dt / 2

/-- The kinematic velocity update of `Vehicle.update` (vehicle.py lines 62-67):
clamped to `0` when the projection is negative. -/
def kinematicV (veh : Vehicle) (dt : ℚ) : ℚ :=
  if projectedV veh dt < 0 then 0 else projectedV veh dt

/-- `Vehicle.update(lead, dt)` (vehicle.py lines 53-92): decrement the lane
change timer, kinematic step, collision-avoidance clamp against the leader,
then recompute the IDM acceleration from the *assigned* (post-step) `x`, `v`,
with the `stopped` override last. -/
def Vehicle.update (veh : Vehicle) (lead : Option Vehicle) (dt : ℚ) : Vehicle :=
  let timer := max 0 (veh.lane_change_timer - dt)
  let kx := kinematicX veh dt
  let kv := kinematicV veh dt
  let newx : ℚ :=
    match lead with
    | some ld => if kx > ld.x - ld.l - veh.s0 then ld.x - ld.l - veh.s0 else kx
    | none => kx
  let newv : ℚ :=
    match lead with
    | some ld => if kx > ld.x - ld.l - veh.s0 then ld.v else kv
    | none => kv
  let vlead : ℚ := match lead with | some ld => ld.v | none => 0
  let sStar : ℚ :=
    veh.s0 + max 0 (veh.T * newv + (newv - vlead) * newv / (2 * veh.sab))
  let gap : ℚ := match lead with | some ld => ld.x - newx - ld.l | none => 9999
  let accel : ℚ :=
    veh.a_max * (1 - (newv / veh.v_max) ^ 4 - (sStar / max gap (1 / 10)) ^ 2)
  let accel2 : ℚ := if veh.stopped then -veh.b_max * newv / veh.v_max else accel
  { veh with lane_change_timer := timer, x := newx, v := newv, a := accel2 }

/-- Modelled from the spec's words (§4.2 step 4), for the refinement claim C6:
`s* = min_gap + max(0, T·v + (v − v_lead)·v / (2·sqrt(a_max·b_max)))`,
`gap = max(lead.position − self.position − lead.length, 0.1)` if a leader
exists, else a large constant, and
`a = a_max · (1 − (v / v_max)^4 − (s*/gap)^2)`. -/
def idmAccelSpec (self : Vehicle) (lead : Option Vehicle) : ℚ :=
  let vlead : ℚ := match lead with | some ld => ld.v | none => 0
  let sStar : ℚ :=
    self.s0 + max 0 (self.T * self.v + (self.v - vlead) * self.v / (2 * self.sab))
  let gap : ℚ := match lead with | some ld => max (ld.x - self.x - ld.l) (1 / 10) | none => 9999
  self.a_max * (1 - (self.v / self.v_max) ^ 4 - (sStar / gap) ^ 2)

/-- `Vehicle.change_lane(direction)` (vehicle.py lines 94-101). -/
def Vehicle.change_lane (veh : Vehicle) (direction : ℤ) : Vehicle :=
  let ln := veh.lane + direction
  { veh with lane := if ln < 0 then 0 else ln }

/-- The `lane_free` helper of `update_lane_decision` (vehicle.py lines 113-119):
a candidate lane is free when every occupant other than the vehicle itself is
at longitudinal distance at least `s0`. -/
def laneFree (self : Vehicle) (occ : ℤ → List Vehicle) (target : ℤ) : Bool :=
  (occ target).all fun o => o.id == self.id || decide (self.s0 ≤ |o.x - self.x|)

/-- Python's `min(..., key=lambda v: v.x, default=None)`: the first occupant
with minimal position. -/
def argminX (vs : List Vehicle) : Option Vehicle :=
  vs.foldl
    (fun acc o =>
      match acc with
      | none => some o
      | some b => if o.x < b.x then some o else some b)
    none

/-- The `accel_if_lane` helper of `update_lane_decision` (vehicle.py lines
121-129): hypothetical IDM acceleration in a lane, with the nearest occupant
strictly ahead as leader. -/
def accelIfLane (self : Vehicle) (occ : ℤ → List Vehicle) (ln : ℤ) : ℚ :=
  let lead := argminX ((occ ln).filter fun o => decide (self.x < o.x))
  let gap : ℚ := match lead with | some ld => ld.x - self.x - ld.l | none => 9999
  let vlead : ℚ := match lead with | some ld => ld.v | none => 0
  let sStar : ℚ :=
    self.s0 + max 0 (self.T * self.v + (self.v - vlead) * self.v / (2 * self.sab))
  self.a_max * (1 - (self.v / self.v_max) ^ 4 - (sStar / max gap (1 / 10)) ^ 2)

/-- The best-gain scan of `update_lane_decision` (vehicle.py lines 148-156):
fold keeping the first lane with the strictly largest positive gain. -/
def bestLaneScan (self : Vehicle) (occ : ℤ → List Vehicle) (accelCurrent : ℚ)
    (cands : List ℤ) : ℤ × ℚ :=
  cands.foldl
    (fun b ln =>
      if laneFree self occ ln ∧ accelIfLane self occ ln - accelCurrent > b.2 then
        (ln, accelIfLane self occ ln - accelCurrent)
      else b)
    (self.lane, 0)

/-- `Vehicle.update_lane_decision(max_lanes, lane_occupancy)` (vehicle.py lines
103-160): no-op under cooldown; right-lane preference checked first (accept
when the gain is strictly above `-0.5`); otherwise pick the adjacent free lane
with the largest strictly positive gain. -/
def Vehicle.update_lane_decision (self : Vehicle) (max_lanes : ℤ)
    (occ : ℤ → List Vehicle) : Vehicle :=
  if self.lane_change_timer > 0 then self
  else
    let accelCurrent := accelIfLane self occ self.lane
    let cands : List ℤ :=
      (if self.lane > 0 then [self.lane - 1] else []) ++
        (if self.lane < max_lanes - 1 then [self.lane + 1] else [])
    if self.lane > 0 ∧ laneFree self occ (self.lane - 1) = true ∧
        accelIfLane self occ (self.lane - 1) - accelIfLane self occ self.lane > -(1 / 2) then
      { self with lane := self.lane - 1, lane_change_timer := self.lane_change_cooldown }
    else
      let best := bestLaneScan self occ accelCurrent cands
      if best.1 ≠ self.lane then
        { self with lane := best.1, lane_change_timer := self.lane_change_cooldown }
      else self

/-- A path segment as seen by the simulation loop (`Segment.__init__`).
The geometry (`get_length`, a sum of Euclidean distances, hence irrational in
general) is modelled by the stored value `length`; the simulation code only
reads this value.  `vehicles` is the FIFO deque of occupant ids, head first. -/
structure Segment where
  length : ℚ
  num_lanes : ℕ
  vehicles : List ℕ
  deriving Repr, DecidableEq

/-- Placeholder segment for total list indexing (the source never indexes out
of range). -/
def defSeg : Segment := { length := 0, num_lanes := 0, vehicles := [] }

/-- Placeholder vehicle for total oracle-stream reads. -/
def defVehicle : Vehicle :=
  { id := 0, l := 4, s0 := 4, T := 1, v_max := 16, a_max := 1, b_max := 1
    sab := 1, path := [], current_road_index := 0, x := 0, v := 0, a := 0
    stopped := false, departure_time := none, arrival_time := none, lane := 0
    lane_change_timer := 0, lane_change_cooldown := 1 }

/-- Point update of the vehicle table (`self.vehicles[vid] = veh` /
in-place mutation of the object stored under `vid`). -/
def setVeh (tbl : ℕ → Vehicle) (i : ℕ) (v : Vehicle) : ℕ → Vehicle :=
  fun j => if j = i then v else tbl j

/-- The follower updates of the dynamics phase (simulation.py lines 240-242):
each occupant after the head updates with the table's *current* entry for its
queue predecessor as leader (the predecessor has already been updated in this
step). -/
def dynFollow (dt : ℚ) : (ℕ → Vehicle) → ℕ → List ℕ → (ℕ → Vehicle)
  | tbl, _, [] => tbl
  | tbl, prev, i :: rest =>
      dynFollow dt (setVeh tbl i (Vehicle.update (tbl i) (some (tbl prev)) dt)) i rest

/-- Dynamics update of one segment (simulation.py lines 238-242): the head of
the queue updates with no leader, then the followers in queue order. -/
def dynSegment (dt : ℚ) (tbl : ℕ → Vehicle) (q : List ℕ) : ℕ → Vehicle :=
  match q with
  | [] => tbl
  | h :: rest => dynFollow dt (setVeh tbl h (Vehicle.update (tbl h) none dt)) h rest

/-- The dynamics phase of `Simulation.update` (simulation.py lines 237-242):
every segment in order. -/
def dynPhase (dt : ℚ) (segs : List Segment) (tbl : ℕ → Vehicle) : ℕ → Vehicle :=
  segs.foldl (fun t sg => dynSegment dt t sg.vehicles) tbl

/-- `lane_vehicles` in `VehicleGenerator.update` (vehicle_generator.py lines
45-49): the occupants of lane `ln` of a queue, in queue order. -/
def laneVehicles (tbl : ℕ → Vehicle) (q : List ℕ) (ln : ℤ) : List Vehicle :=
  (q.map tbl).filter fun v => v.lane == ln

/-- The per-lane space test of `VehicleGenerator.update` (vehicle_generator.py
line 50): the lane is empty, or its last queue member (the tail occupant) is
strictly beyond `s0 + l` of the candidate. -/
def laneHasSpace (tbl : ℕ → Vehicle) (q : List ℕ) (cand : Vehicle) (ln : ℤ) : Bool :=
  match (laneVehicles tbl q ln).getLast? with
  | none => true
  | some tail => decide (cand.s0 + cand.l < tail.x)

/-- The `for ln in range(...)` scan with `break` (vehicle_generator.py lines
44-52), as a recursion on the number of remaining lanes. -/
def chooseLaneAux (p : ℕ → Bool) : ℕ → ℕ → Option ℕ
  | _, 0 => none
  | ln, n + 1 => if p ln then some ln else chooseLaneAux p (ln + 1) n

/-- The first lane of the candidate's entry segment with enough space
(vehicle_generator.py lines 42-52). -/
def chooseLane (tbl : ℕ → Vehicle) (q : List ℕ) (numLanes : ℕ) (cand : Vehicle) :
    Option ℕ :=
  chooseLaneAux (fun ln => laneHasSpace tbl q cand (ln : ℤ)) 0 numLanes

/-- A vehicle generator (`VehicleGenerator.__init__`): the stochastic draws of
`pick_vehicle` and `np.random.exponential` are supplied as oracle streams
`draws` and `exp_draws`. -/
structure VehicleGenerator where
  vehicle_rate : ℚ
  upcoming : Vehicle
  next_spawn_time : ℚ
  last_added_time : ℚ
  draws : List Vehicle
  exp_draws : List ℚ
  deriving Repr, DecidableEq

/-- The simulation state (`Simulation.__init__`). -/
structure Simulation where
  segments : List Segment
  vehicles : ℕ → Vehicle
  generators : List VehicleGenerator
  t : ℚ
  frame_count : ℕ
  dt : ℚ
  departures : List ℚ
  arrivals : List ℚ

/-- Replace the queue of segment `k`. -/
def setSegQueue (segs : List Segment) (k : ℕ) (q : List ℕ) : List Segment :=
  segs.set k { segs.getD k defSeg with vehicles := q }

/-- `segment.vehicles.append(vid)` on segment `k`. -/
def appendVeh (segs : List Segment) (k : ℕ) (vid : ℕ) : List Segment :=
  setSegQueue segs k ((segs.getD k defSeg).vehicles ++ [vid])

/-- `Simulation.add_vehicle(veh)` (simulation.py lines 25-32): store the
vehicle, stamp its departure time, log the departure, and enqueue it on its
first itinerary segment when the path is nonempty. -/
def Simulation.add_vehicle (st : Simulation) (veh : Vehicle) : Simulation :=
  let veh2 := { veh with departure_time := some st.t }
  let st1 := { st with vehicles := setVeh st.vehicles veh.id veh2
                       departures := st.departures ++ [st.t] }
  if veh2.path ≠ [] then
    { st1 with segments := appendVeh st1.segments (veh2.path.headD 0) veh2.id }
  else st1

/-- One step of the hash-gated lane-change loop (simulation.py lines 263-266).
Python's `hash(veh_id)` on the id is modelled as the id value itself. -/
def laneLoopStep (numLanes : ℕ) (tbl : ℕ → Vehicle) (vid : ℕ) : ℕ → Vehicle :=
  if 1 < numLanes ∧ 0 < (tbl vid).v ∧ vid % 20 = 0 then
    setVeh tbl vid (Vehicle.change_lane (tbl vid) 1)
  else tbl

/-- The lane-change loop over a queue (simulation.py lines 263-266). -/
def laneLoop (numLanes : ℕ) (tbl : ℕ → Vehicle) (q : List ℕ) : ℕ → Vehicle :=
  q.foldl (laneLoopStep numLanes) tbl

/-- Transition handling for segment `k` (simulation.py lines 245-266): if the
segment is non-empty and its head occupant has reached the segment length,
record the arrival time once, advance the itinerary and enqueue on the next
segment when path remains, reset the position to `0` and pop the head; then
run the hash-gated lane-change loop on the remaining occupants. -/
def transSeg (st : Simulation) (k : ℕ) : Simulation :=
  let sg := st.segments.getD k defSeg
  if sg.vehicles.isEmpty then st
  else
    let vid := sg.vehicles.headD 0
    let veh := st.vehicles vid
    let st1 :=
      if veh.x ≥ sg.length then
        let veh1 := if veh.arrival_time = none then { veh with arrival_time := some st.t } else veh
        let arrivals1 := if veh.arrival_time = none then st.arrivals ++ [st.t] else st.arrivals
        let adv := veh1.current_road_index + 1 < veh1.path.length
        let veh2 := if adv then { veh1 with current_road_index := veh1.current_road_index + 1 } else veh1
        let segs1 := if adv then appendVeh st.segments (veh2.path.getD veh2.current_road_index 0) vid
                     else st.segments
        let veh3 := { veh2 with x := 0 }
        let segs2 := setSegQueue segs1 k ((segs1.getD k defSeg).vehicles.tail)
        { st with vehicles := setVeh st.vehicles vid veh3, segments := segs2, arrivals := arrivals1 }
      else st
    let sg1 := st1.segments.getD k defSeg
    { st1 with vehicles := laneLoop sg1.num_lanes st1.vehicles sg1.vehicles }

/-- The transition phase of `Simulation.update` (simulation.py lines 245-266),
segment by segment in list order. -/
def transPhase (st : Simulation) : Simulation :=
  (List.range st.segments.length).foldl transSeg st

/-- `VehicleGenerator.update(simulation)` (vehicle_generator.py lines 38-59):
when the spawn instant has been reached, scan the lanes of the candidate's
first itinerary segment, insert the candidate on the first lane with space,
then redraw the candidate and reschedule from the oracle streams. -/
def VehicleGenerator.update (st : Simulation) (g : VehicleGenerator) :
    Simulation × VehicleGenerator :=
  if st.t ≥ g.next_spawn_time then
    let sg := st.segments.getD (g.upcoming.path.headD 0) defSeg
    let st1 :=
      match chooseLane st.vehicles sg.vehicles sg.num_lanes g.upcoming with
      | some ln => st.add_vehicle { g.upcoming with lane := (ln : ℤ) }
      | none => st
    (st1,
      { g with upcoming := g.draws.headD defVehicle
               draws := g.draws.tail
               last_added_time := st.t
               next_spawn_time := st.t + g.exp_draws.headD 0
               exp_draws := g.exp_draws.tail })
  else (st, g)

/-- The generator phase of `Simulation.update` (simulation.py lines 269-270). -/
def genPhase (st : Simulation) : Simulation :=
  let p := st.generators.foldl
    (fun (p : Simulation × List VehicleGenerator) g =>
      let r := VehicleGenerator.update p.1 g
      (r.1, p.2 ++ [r.2]))
    (st, [])
  { p.1 with generators := p.2 }

/-- `Simulation.update()` (simulation.py lines 229-273): dynamics phase,
transition phase, generator phase, then advance time and the frame count. -/
def Simulation.update (st : Simulation) : Simulation :=
  let st1 := { st with vehicles := dynPhase st.dt st.segments st.vehicles }
  let st2 := transPhase st1
  let st3 := genPhase st2
  { st3 with t := st3.t + st3.dt, frame_count := st3.frame_count + 1 }

/-- The bisection loop of `Segment.find_t` (segment.py lines 142-151), with
explicit fuel standing for the number of loop iterations: compute the
midpoint's integral; return it when within tolerance, else halve the bracket.
`f t` stands for `quad(self.abs_f, a, t)`, the arc length integral from the
start parameter to `t`. -/
def bisect (f : ℚ → ℚ) (L eps : ℚ) : ℕ → ℚ → ℚ → Option ℚ
  | 0, _, _ => none
  | n + 1, lo, hi =>
      let mid := (lo + hi) / 2
      if |f mid - L| > eps then
        if f mid < L then bisect f L eps n mid hi else bisect f L eps n lo mid
      else some mid

/-- `Segment.find_t(a, L, epsilon)` (segment.py lines 126-151): return `1`
when the whole remaining curve is shorter than the target, else bisect on
`[a, 1]`.  `f` is the arc-length integral `t ↦ quad(abs_f, a, t)`. -/
def find_t (f : ℚ → ℚ) (a L eps : ℚ) (fuel : ℕ) : Option ℚ :=
  if f 1 < L then some 1 else bisect f L eps fuel a 1

/-! Concrete states used by counterexamples and witnesses. -/

/-- Concrete leader for the dynamics-phase leader-state analysis. -/
def ceVehA : Vehicle := { defVehicle with id := 0, x := 10, v := 1, a := 0, l := 1, s0 := 1 }

/-- Concrete follower whose projected position intrudes the leader's gap. -/
def ceVehB : Vehicle := { defVehicle with id := 1, x := 0, v := 0, a := 20, s0 := 1 }

/-- Two-vehicle table: id 0 is the queue head, id 1 its follower. -/
def ceTbl : ℕ → Vehicle := fun j => if j = 0 then ceVehA else ceVehB

/-- One-lane segment holding the two vehicles above. -/
def w1seg : Segment := { length := 100, num_lanes := 1, vehicles := [0, 1] }

/-- A vehicle with a two-segment itinerary that has reached the end of its
first segment. -/
def c2veh : Vehicle :=
  { defVehicle with id := 7, x := 6, v := 0, a := 0, path := [0, 1]
                    departure_time := some 0 }

/-- Simulation state in which vehicle 7 crosses the boundary of segment 0
while segment 1 of its itinerary still lies ahead. -/
def c2sim : Simulation :=
  { segments := [{ length := 5, num_lanes := 1, vehicles := [7] },
                 { length := 5, num_lanes := 1, vehicles := [] }]
    vehicles := fun _ => c2veh, generators := [], t := 0, frame_count := 0
    dt := 1, departures := [0], arrivals := [] }

/-- Concrete clamp-safety witness inputs. -/
def w3veh : Vehicle := { defVehicle with x := 0, v := 10, a := 0 }

/-- Leader close enough that the projection of `w3veh` intrudes its gap. -/
def w3lead : Vehicle := { defVehicle with id := 1, x := 5, l := 1, v := 2 }

/-- A braking vehicle whose projected velocity is negative. -/
def c4veh : Vehicle := { defVehicle with x := 0, v := 1, a := -2, s0 := 1 }

/-- A leader so close that the decel-stop position still intrudes its gap. -/
def c4lead : Vehicle := { defVehicle with id := 1, x := 1, l := 1, v := 5 }

/-- A braking vehicle with no leader, for the amended-claim witness. -/
def w4veh : Vehicle := { defVehicle with x := 0, v := 1, a := -2 }

/-- Stationary leader sitting just past the segment entry. -/
def c5veh0 : Vehicle := { defVehicle with id := 0, x := 1, v := 0, a := 0, l := 4 }

/-- Follower at the entry: its safe boundary is negative. -/
def c5veh1 : Vehicle := { defVehicle with id := 1, x := 0, v := 0, a := 0, s0 := 2 }

/-- State whose follower is clamped to a negative position in one step. -/
def c5sim : Simulation :=
  { segments := [{ length := 10, num_lanes := 1, vehicles := [0, 1] }]
    vehicles := fun j => if j = 0 then c5veh0 else c5veh1
    generators := [], t := 0, frame_count := 0, dt := 1
    departures := [], arrivals := [] }

/-- Head vehicle beyond its segment's length. -/
def w5veh : Vehicle := { defVehicle with id := 3, x := 7, v := 0, a := 0, path := [0] }

/-- State whose head occupant has overshot the segment end. -/
def w5sim : Simulation :=
  { segments := [{ length := 5, num_lanes := 1, vehicles := [3] }]
    vehicles := fun _ => w5veh, generators := [], t := 0, frame_count := 0
    dt := 1, departures := [], arrivals := [] }

/-- Vehicle in lane 1 engineered so that the right-lane gain is exactly
`-1/2`: `a_max = b_max = 1` (so `sab = sqrt(1) = 1` exactly), `v = 1`,
`T = 1`, `s0 = 13/4`. -/
def c8self : Vehicle :=
  { defVehicle with id := 10, x := 0, v := 1, T := 1, s0 := 13 / 4, a_max := 1
                    b_max := 1, sab := 1, v_max := 16, lane := 1
                    lane_change_timer := 0, lane_change_cooldown := 1 }

/-- Lane-0 leader giving hypothetical gap 3 at leader speed 0. -/
def c8A : Vehicle := { defVehicle with id := 1, x := 4, l := 1, v := 0, lane := 0 }

/-- Lane-1 leader giving current gap 3 at leader speed 1. -/
def c8B : Vehicle := { defVehicle with id := 2, x := 4, l := 1, v := 1, lane := 1 }

/-- Occupancy map for the exact `-1/2` gain configuration. -/
def c8occ : ℤ → List Vehicle :=
  fun ln => if ln = 0 then [c8A] else if ln = 1 then [c8B] else []

/-- Far-away lane-0 leader: moving right is clearly beneficial. -/
def w8A : Vehicle := { defVehicle with id := 1, x := 40, l := 1, v := 0, lane := 0 }

/-- Occupancy map where the right-lane move is accepted. -/
def w8occ : ℤ → List Vehicle :=
  fun ln => if ln = 0 then [w8A] else if ln = 1 then [c8B] else []

/-- Vehicle under an active lane-change cooldown. -/
def w9self : Vehicle := { defVehicle with lane_change_timer := 1 }

/-- Tail occupant of lane 0, too close to the entry for a spawn. -/
def w10tail : Vehicle := { defVehicle with id := 3, x := 2, lane := 0 }

/-- Spawn candidate with `s0 + l = 8`. -/
def w10cand : Vehicle :=
  { defVehicle with id := 9, x := 0, path := [0], s0 := 4, l := 4, lane := 0 }

/-- Two-lane entry segment occupied by `w10tail` in lane 0. -/
def w10seg : Segment := { length := 100, num_lanes := 2, vehicles := [3] }

/-- Simulation state for the generator witness. -/
def w10sim : Simulation :=
  { segments := [w10seg], vehicles := fun _ => w10tail, generators := []
    t := 0, frame_count := 0, dt := 1, departures := [], arrivals := [] }

/-- Generator whose spawn instant has arrived. -/
def w10gen : VehicleGenerator :=
  { vehicle_rate := 100, upcoming := w10cand, next_spawn_time := 0
    last_added_time := 0, draws := [], exp_draws := [] }

/-- Claim C3: after `Vehicle.update` with a leader present, the position never
exceeds `lead.x - lead.l - s0` (the leader's state at call time), and whenever
the kinematically projected position exceeds that boundary, the position is
clamped to it and the velocity is set to the leader's velocity. -/
theorem vehicle_update_safety_clamp (veh ld : Vehicle) (dt : ℚ) :
    (Vehicle.update veh (some ld) dt).x ≤ ld.x - ld.l - veh.s0 ∧
    (kinematicX veh dt > ld.x - ld.l - veh.s0 →
      (Vehicle.update veh (some ld) dt).x = ld.x - ld.l - veh.s0 ∧
      (Vehicle.update veh (some ld) dt).v = ld.v) := by
  by_cases h : kinematicX veh dt > ld.x - ld.l - veh.s0
  · refine ⟨?_, fun _ => ⟨?_, ?_⟩⟩ <;> simp [Vehicle.update, if_pos h]
  · refine ⟨?_, fun hc => absurd hc h⟩
    simp only [Vehicle.update, if_neg h]
    exact le_of_not_lt h

/-- Witness for C3 at a concrete clamping input. -/
theorem vehicle_update_safety_clamp_witness :
    (Vehicle.update w3veh (some w3lead) 1).x ≤ w3lead.x - w3lead.l - w3veh.s0 ∧
    ((Vehicle.update w3veh (some w3lead) 1).x = w3lead.x - w3lead.l - w3veh.s0 ∧
      (Vehicle.update w3veh (some w3lead) 1).v = w3lead.v) :=
  ⟨(vehicle_update_safety_clamp w3veh w3lead 1).1,
   (vehicle_update_safety_clamp w3veh w3lead 1).2
     (by norm_num [kinematicX, projectedV, w3veh, w3lead, defVehicle])⟩

/-- Claim C4, counterexample: all of the claim's hypotheses hold (`dt ≥ 0`,
`v ≥ 0`, `lead.v ≥ 0`) and the projected velocity is negative, yet the
post-update velocity is `5`, not `0`, and the position is `-1`, not the
decel-stop position `1/4`: the safety clamp overrides the kinematic stop. -/
theorem kinematic_stop_refuted :
    projectedV c4veh 1 < 0 ∧ (0 : ℚ) ≤ 1 ∧ 0 ≤ c4veh.v ∧ 0 ≤ c4lead.v ∧
    (Vehicle.update c4veh (some c4lead) 1).v = 5 ∧
    (Vehicle.update c4veh (some c4lead) 1).x = -1 ∧
    c4veh.x - c4veh.v ^ 2 / (2 * c4veh.a) = 1 / 4 := by
  norm_num [Vehicle.update, kinematicX, kinematicV, projectedV, c4veh, c4lead, defVehicle]

/-- Claim C4 (amended): under nonnegative `dt`, `v` and leader velocity the
post-update velocity is nonnegative; and when the projected velocity is
negative, the update yields exactly `x - 0.5·v²/a` and velocity `0` provided
no leader is present or the decel-stop position does not intrude the leader's
safe gap (otherwise the safety clamp overrides). -/
theorem vehicle_update_velocity_nonneg (veh : Vehicle) (lead : Option Vehicle) (dt : ℚ)
    (hdt : 0 ≤ dt) (hv : 0 ≤ veh.v)
    (hlv : ∀ ld, lead = some ld → 0 ≤ ld.v) :
    0 ≤ (Vehicle.update veh lead dt).v ∧
    (lead = none → projectedV veh dt < 0 →
      (Vehicle.update veh lead dt).x = veh.x - veh.v ^ 2 / (2 * veh.a) ∧
      (Vehicle.update veh lead dt).v = 0) ∧
    (∀ ld, lead = some ld → projectedV veh dt < 0 →
      kinematicX veh dt ≤ ld.x - ld.l - veh.s0 →
      (Vehicle.update veh lead dt).x = veh.x - veh.v ^ 2 / (2 * veh.a) ∧
      (Vehicle.update veh lead dt).v = 0) := by
  have hkv : 0 ≤ kinematicV veh dt := by
    unfold kinematicV
    split
    · exact le_rfl
    · next h => exact le_of_not_lt h
  refine ⟨?_, ?_, ?_⟩
  · cases lead with
    | none => simpa [Vehicle.update] using hkv
    | some ld =>
      by_cases h : kinematicX veh dt > ld.x - ld.l - veh.s0
      · simpa [Vehicle.update, if_pos h] using hlv ld rfl
      · simpa [Vehicle.update, if_neg h] using hkv
  · rintro rfl hneg
    constructor
    · simp only [Vehicle.update]
      rw [kinematicX, if_pos hneg]
    · simp only [Vehicle.update]
      rw [kinematicV, if_pos hneg]
  · rintro ld rfl hneg hle
    have h : ¬ kinematicX veh dt > ld.x - ld.l - veh.s0 := not_lt.mpr hle
    constructor
    · simp only [Vehicle.update, if_neg h]
      rw [kinematicX, if_pos hneg]
    · simp only [Vehicle.update, if_neg h]
      rw [kinematicV, if_pos hneg]

/-- Witness for the amended C4 at a concrete leaderless braking input. -/
theorem vehicle_update_velocity_nonneg_witness :
    0 ≤ (Vehicle.update w4veh none 1).v ∧
    ((Vehicle.update w4veh none 1).x = w4veh.x - w4veh.v ^ 2 / (2 * w4veh.a) ∧
      (Vehicle.update w4veh none 1).v = 0) :=
  ⟨(vehicle_update_velocity_nonneg w4veh none 1 (by norm_num)
      (by norm_num [w4veh, defVehicle]) (fun _ h => Option.noConfusion h)).1,
   (vehicle_update_velocity_nonneg w4veh none 1 (by norm_num)
      (by norm_num [w4veh, defVehicle]) (fun _ h => Option.noConfusion h)).2.1 rfl
     (by norm_num [projectedV, w4veh, defVehicle])⟩

/-- Claim C6: `Vehicle.update` sets the next-step acceleration to the IDM
formula of the spec, evaluated at the assigned (post-step) position and
velocity, with the `stopped` override. -/
theorem vehicle_update_idm_formula (veh : Vehicle) (lead : Option Vehicle) (dt : ℚ) :
    (Vehicle.update veh lead dt).a =
      if veh.stopped then -veh.b_max * (Vehicle.update veh lead dt).v / veh.v_max
      else idmAccelSpec (Vehicle.update veh lead dt) lead := by
  have h9999 : (9999 : ℚ) ⊔ 10⁻¹ = 9999 :=
    max_eq_left (by norm_num)
  cases lead with
  | none =>
    by_cases hs : veh.stopped <;>
      simp [Vehicle.update, idmAccelSpec, hs, h9999]
  | some ld =>
    by_cases hs : veh.stopped <;>
      simp [Vehicle.update, idmAccelSpec, hs]

/-- Claim C8, counterexample: timer zero, current lane 1, lane 0 free, and the
right-lane gain is exactly `-1/2` — "not below −0.5" in the claim's sense —
yet the vehicle stays in lane 1 because the code tests `gain > -0.5`
strictly. -/
theorem right_lane_boundary_refuted :
    c8self.lane_change_timer = 0 ∧ c8self.lane = 1 ∧
    laneFree c8self c8occ 0 = true ∧
    accelIfLane c8self c8occ 0 - accelIfLane c8self c8occ 1 = -(1 / 2) ∧
    (Vehicle.update_lane_decision c8self 2 c8occ).lane = 1 := by
  norm_num [Vehicle.update_lane_decision, bestLaneScan, laneFree, accelIfLane,
    argminX, c8self, c8A, c8B, c8occ, defVehicle, List.filter]

/-- Claim C8 (amended): with no cooldown pending, a current lane above 0, the
lane below free, and right-lane gain strictly greater than `-1/2`, the vehicle
moves to the lower lane, resets its cooldown, and nothing else changes —
regardless of `max_lanes` or any other lane's occupancy. -/
theorem right_lane_preference (self : Vehicle) (m : ℤ) (occ : ℤ → List Vehicle)
    (ht : ¬ self.lane_change_timer > 0) (hl : self.lane > 0)
    (hf : laneFree self occ (self.lane - 1) = true)
    (hg : accelIfLane self occ (self.lane - 1) - accelIfLane self occ self.lane > -(1 / 2)) :
    Vehicle.update_lane_decision self m occ =
      { self with lane := self.lane - 1
                  lane_change_timer := self.lane_change_cooldown } := by
  simp only [Vehicle.update_lane_decision, if_neg ht]
  rw [if_pos ⟨hl, hf, hg⟩]

/-- Witness for the amended C8: the right-lane move is taken at a concrete
beneficial configuration. -/
theorem right_lane_preference_witness :
    Vehicle.update_lane_decision c8self 2 w8occ =
      { c8self with lane := c8self.lane - 1
                    lane_change_timer := c8self.lane_change_cooldown } :=
  right_lane_preference c8self 2 w8occ (by norm_num [c8self, defVehicle])
    (by norm_num [c8self, defVehicle])
    (by norm_num [laneFree, c8self, w8A, w8occ, defVehicle])
    (by norm_num [accelIfLane, argminX, c8self, w8A, c8B, w8occ, defVehicle, List.filter])

/-- Claim C9: while the cooldown timer is above 0, `update_lane_decision` is a
no-op, and iterating it any number of times leaves the vehicle unchanged. -/
theorem lane_decision_cooldown_noop (self : Vehicle) (m : ℤ) (occ : ℤ → List Vehicle)
    (ht : 0 < self.lane_change_timer) (n : ℕ) :
    (fun u => Vehicle.update_lane_decision u m occ)^[n] self = self := by
  have h1 : Vehicle.update_lane_decision self m occ = self := by
    unfold Vehicle.update_lane_decision
    rw [if_pos ht]
  induction n with
  | zero => rfl
  | succ k ih =>
    rw [Function.iterate_succ_apply]
    show (fun u => Vehicle.update_lane_decision u m occ)^[k]
      (Vehicle.update_lane_decision self m occ) = self
    rw [h1, ih]

/-- Witness for C9 at a concrete vehicle under cooldown, five iterations. -/
theorem lane_decision_cooldown_noop_witness :
    (fun u => Vehicle.update_lane_decision u 3 fun _ => [])^[5] w9self = w9self :=
  lane_decision_cooldown_noop w9self 3 (fun _ => [])
    (by norm_num [w9self, defVehicle]) 5

theorem setVeh_same (tbl : ℕ → Vehicle) (i : ℕ) (v : Vehicle) : setVeh tbl i v i = v := by
  simp [setVeh]

theorem setVeh_other (tbl : ℕ → Vehicle) (i : ℕ) (v : Vehicle) {j : ℕ} (h : j ≠ i) :
    setVeh tbl i v j = tbl j := by
  simp [setVeh, h]

theorem dynFollow_notMem (dt : ℚ) (rest : List ℕ) :
    ∀ (tbl : ℕ → Vehicle) (prev j : ℕ), j ∉ rest → dynFollow dt tbl prev rest j = tbl j := by
  induction rest with
  | nil => intro tbl prev j _; rfl
  | cons i r ih =>
    intro tbl prev j h
    have hji : j ≠ i := fun he => h (he ▸ List.mem_cons_self i r)
    have hjr : j ∉ r := fun hm => h (List.mem_cons_of_mem i hm)
    show dynFollow dt (setVeh tbl i (Vehicle.update (tbl i) (some (tbl prev)) dt)) i r j = tbl j
    rw [ih _ _ _ hjr]
    exact setVeh_other _ _ _ hji

theorem dynFollow_chain (dt : ℚ) (rest : List ℕ) :
    ∀ (tbl : ℕ → Vehicle) (prev : ℕ), prev ∉ rest → rest.Nodup →
      dynFollow dt tbl prev rest prev = tbl prev ∧
      ∀ (n p q : ℕ), (prev :: rest).get? n = some p →
        (prev :: rest).get? (n + 1) = some q →
        dynFollow dt tbl prev rest q =
          Vehicle.update (tbl q) (some (dynFollow dt tbl prev rest p)) dt := by
  induction rest with
  | nil =>
    intro tbl prev _ _
    refine ⟨rfl, ?_⟩
    intro n p q _ hq
    cases n <;> simp [List.get?] at hq
  | cons i r ih =>
    intro tbl prev hprev hnd
    have hpi : prev ≠ i := fun he => hprev (he ▸ List.mem_cons_self i r)
    have hpr : prev ∉ r := fun hm => hprev (List.mem_cons_of_mem i hm)
    have hir : i ∉ r := (List.nodup_cons.mp hnd).1
    have hndr : r.Nodup := (List.nodup_cons.mp hnd).2
    obtain ⟨ih1, ih2⟩ :=
      ih (setVeh tbl i (Vehicle.update (tbl i) (some (tbl prev)) dt)) i hir hndr
    have hstep : dynFollow dt tbl prev (i :: r) =
        dynFollow dt (setVeh tbl i (Vehicle.update (tbl i) (some (tbl prev)) dt)) i r := rfl
    have hprevval : dynFollow dt tbl prev (i :: r) prev = tbl prev := by
      rw [hstep, dynFollow_notMem dt r _ i prev hpr]
      exact setVeh_other _ _ _ hpi
    refine ⟨hprevval, ?_⟩
    intro n p q hp hq
    match n with
    | 0 =>
      have hp' : p = prev := by simpa using hp.symm
      have hq' : q = i := by simpa using hq.symm
      subst hp'
      subst hq'
      rw [hprevval, hstep, ih1, setVeh_same]
    | Nat.succ m =>
      rw [List.get?_cons_succ] at hp hq
      have e2 := ih2 m p q hp hq
      have hqmem : q ∈ r := by
        rw [List.get?_cons_succ] at hq
        exact List.get?_mem hq
      have hqi : q ≠ i := fun he => hir (he ▸ hqmem)
      rw [hstep, e2, setVeh_other _ _ _ hqi]

theorem dynSegment_notMem (dt : ℚ) (tbl : ℕ → Vehicle) (q : List ℕ) (j : ℕ)
    (h : j ∉ q) : dynSegment dt tbl q j = tbl j := by
  cases q with
  | nil => rfl
  | cons hd r =>
    have hjh : j ≠ hd := fun he => h (he ▸ List.mem_cons_self hd r)
    have hjr : j ∉ r := fun hm => h (List.mem_cons_of_mem hd hm)
    show dynFollow dt (setVeh tbl hd (Vehicle.update (tbl hd) none dt)) hd r j = tbl j
    rw [dynFollow_notMem dt r _ hd j hjr]
    exact setVeh_other _ _ _ hjh

theorem dynSegment_head (dt : ℚ) (tbl : ℕ → Vehicle) (hd : ℕ) (r : List ℕ)
    (hnd : (hd :: r).Nodup) :
    dynSegment dt tbl (hd :: r) hd = Vehicle.update (tbl hd) none dt := by
  have hir : hd ∉ r := (List.nodup_cons.mp hnd).1
  show dynFollow dt (setVeh tbl hd (Vehicle.update (tbl hd) none dt)) hd r hd = _
  rw [dynFollow_notMem dt r _ hd hd hir, setVeh_same]

theorem dynSegment_chain (dt : ℚ) (tbl : ℕ → Vehicle) (q : List ℕ) (hnd : q.Nodup)
    (n p qq : ℕ) (hp : q.get? n = some p) (hq : q.get? (n + 1) = some qq) :
    dynSegment dt tbl q qq =
      Vehicle.update (tbl qq) (some (dynSegment dt tbl q p)) dt := by
  cases q with
  | nil => simp at hp
  | cons hd r =>
    have hhd : hd ∉ r := (List.nodup_cons.mp hnd).1
    have hndr : r.Nodup := (List.nodup_cons.mp hnd).2
    obtain ⟨_, chain⟩ :=
      dynFollow_chain dt r (setVeh tbl hd (Vehicle.update (tbl hd) none dt)) hd hhd hndr
    have hc := chain n p qq hp hq
    have hqmem : qq ∈ r := by
      rw [List.get?_cons_succ] at hq
      exact List.get?_mem hq
    have hqhd : qq ≠ hd := fun he => hhd (he ▸ hqmem)
    show dynFollow dt (setVeh tbl hd (Vehicle.update (tbl hd) none dt)) hd r qq = _
    rw [hc, setVeh_other _ _ _ hqhd]
    rfl

theorem dynPhase_cons (dt : ℚ) (s : Segment) (rest : List Segment) (tbl : ℕ → Vehicle) :
    dynPhase dt (s :: rest) tbl = dynPhase dt rest (dynSegment dt tbl s.vehicles) := rfl

theorem dynPhase_notMem (dt : ℚ) (segs : List Segment) :
    ∀ (tbl : ℕ → Vehicle) (j : ℕ),
      (∀ sg ∈ segs, j ∉ sg.vehicles) → dynPhase dt segs tbl j = tbl j := by
  induction segs with
  | nil => intro tbl j _; rfl
  | cons s rest ih =>
    intro tbl j h
    rw [dynPhase_cons, ih _ _ (fun sg hm => h sg (List.mem_cons_of_mem s hm))]
    exact dynSegment_notMem dt tbl s.vehicles j (h s (List.mem_cons_self s rest))

/-- Claim C1 (amended): the dynamics phase updates every occupant of every
segment exactly once, in queue order — ids on no queue are untouched, queue
heads update with no leader, and every follower's update takes its own
pre-step state together with the *already-updated within this step*
(post-step) state of its queue predecessor as leader. -/
theorem dynPhase_char (dt : ℚ) (segs : List Segment) (tbl : ℕ → Vehicle)
    (hnd : ((segs.map Segment.vehicles).flatten).Nodup) :
    (∀ j, (∀ sg ∈ segs, j ∉ sg.vehicles) → dynPhase dt segs tbl j = tbl j) ∧
    ∀ sg ∈ segs,
      (∀ hd r, sg.vehicles = hd :: r →
        dynPhase dt segs tbl hd = Vehicle.update (tbl hd) none dt) ∧
      (∀ n p q, sg.vehicles.get? n = some p → sg.vehicles.get? (n + 1) = some q →
        dynPhase dt segs tbl q =
          Vehicle.update (tbl q) (some (dynPhase dt segs tbl p)) dt) := by
  induction segs generalizing tbl with
  | nil => exact ⟨fun j _ => rfl, fun sg h => absurd h (List.not_mem_nil sg)⟩
  | cons s rest ih =>
    have hnd' : (s.vehicles ++ (rest.map Segment.vehicles).flatten).Nodup := by
      simpa using hnd
    obtain ⟨hnds, hndr, hdisj⟩ := List.nodup_append.mp hnd'
    have hframe_rest : ∀ j ∈ s.vehicles,
        dynPhase dt rest (dynSegment dt tbl s.vehicles) j =
          dynSegment dt tbl s.vehicles j := by
      intro j hj
      refine dynPhase_notMem dt rest _ j ?_
      intro sg hsg hjin
      exact hdisj hj (List.mem_flatten.mpr ⟨sg.vehicles, List.mem_map_of_mem _ hsg, hjin⟩)
    obtain ⟨ihframe, ihseg⟩ := ih (dynSegment dt tbl s.vehicles) hndr
    constructor
    · intro j hj
      rw [dynPhase_cons, ihframe j (fun sg hm => hj sg (List.mem_cons_of_mem s hm))]
      exact dynSegment_notMem dt tbl s.vehicles j (hj s (List.mem_cons_self s rest))
    · intro sg hsg
      rcases List.mem_cons.mp hsg with rfl | hsgr
      · constructor
        · intro hd r hq
          rw [dynPhase_cons, hframe_rest hd (hq ▸ List.mem_cons_self hd r)]
          rw [hq]
          exact dynSegment_head dt tbl hd r (hq ▸ hnds)
        · intro n p q hp hq
          have hpmem : p ∈ sg.vehicles := List.get?_mem hp
          have hqmem : q ∈ sg.vehicles := List.get?_mem hq
          rw [dynPhase_cons, hframe_rest q hqmem, hframe_rest p hpmem]
          exact dynSegment_chain dt tbl sg.vehicles hnds n p q hp hq
      · obtain ⟨ihhead, ihchain⟩ := ihseg sg hsgr
        have htbl1eq : ∀ j ∈ sg.vehicles, dynSegment dt tbl s.vehicles j = tbl j := by
          intro j hj
          refine dynSegment_notMem dt tbl s.vehicles j ?_
          intro hjs
          exact hdisj hjs (List.mem_flatten.mpr ⟨sg.vehicles, List.mem_map_of_mem _ hsgr, hj⟩)
        constructor
        · intro hd r hq
          rw [dynPhase_cons, ihhead hd r hq, htbl1eq hd (hq ▸ List.mem_cons_self hd r)]
        · intro n p q hp hq
          rw [dynPhase_cons, ihchain n p q hp hq, htbl1eq q (List.get?_mem hq)]

/-- Witness for the amended C1 on a concrete two-vehicle segment. -/
theorem dynPhase_char_witness :
    dynPhase 1 [w1seg] ceTbl 1 =
      Vehicle.update (ceTbl 1) (some (dynPhase 1 [w1seg] ceTbl 0)) 1 := by
  have h := (dynPhase_char 1 [w1seg] ceTbl (by simp [w1seg])).2 w1seg
    (List.mem_singleton.mpr rfl)
  exact h.2 0 0 1 rfl rfl

/-- Claim C1, counterexample: on the segment queue `[0, 1]`, the follower is
clamped against the leader's *post-step* position (giving `x = 9`), whereas
an update against the leader's pre-step state would give `x = 8`: followers
do not see the pre-step state of their predecessor. -/
theorem dynamics_prestep_leader_refuted :
    (dynSegment 1 ceTbl [0, 1] 1).x = 9 ∧
    (Vehicle.update (ceTbl 1) (some (ceTbl 0)) 1).x = 8 := by
  constructor <;>
    norm_num [dynSegment, dynFollow, setVeh, Vehicle.update, kinematicX, kinematicV,
      projectedV, ceTbl, ceVehA, ceVehB, defVehicle]

theorem kinematicX_ge (veh : Vehicle) (dt : ℚ) (hdt : 0 ≤ dt) (hv : 0 ≤ veh.v) :
    veh.x ≤ kinematicX veh dt := by
  unfold kinematicX projectedV
  split
  · next h =>
    have hadt : veh.a * dt < 0 := by linarith
    have ha : veh.a < 0 := by
      rcases lt_or_le veh.a 0 with h' | h'
      · exact h'
      · exact absurd hadt (not_lt.mpr (mul_nonneg h' hdt))
    have hq : veh.v ^ 2 / (2 * veh.a) ≤ 0 :=
      div_nonpos_iff.mpr (Or.inl ⟨sq_nonneg _, by linarith⟩)
    linarith
  · next h =>
    have h' : 0 ≤ veh.v + veh.a * dt := le_of_not_lt h
    nlinarith [mul_nonneg h' hdt, mul_nonneg hv hdt]

theorem laneLoopStep_x (nl : ℕ) (tbl : ℕ → Vehicle) (v j : ℕ) :
    (laneLoopStep nl tbl v j).x = (tbl j).x := by
  unfold laneLoopStep
  split
  · unfold setVeh
    split
    · next h => subst h; rfl
    · rfl
  · rfl

theorem laneLoop_x (nl : ℕ) (q : List ℕ) :
    ∀ (tbl : ℕ → Vehicle) (j : ℕ), (laneLoop nl tbl q j).x = (tbl j).x := by
  induction q with
  | nil => intro tbl j; rfl
  | cons v r ih =>
    intro tbl j
    show (laneLoop nl (laneLoopStep nl tbl v) r j).x = (tbl j).x
    rw [ih, laneLoopStep_x]

/-- Claim C5 (amended): positions are not clamped to `[0, L]`.  Instead,
`Vehicle.update` never moves a vehicle backwards except by the leader clamp,
which sets the position exactly to `lead.x - lead.l - s0` (a value that may be
negative or beyond `L`); and the transition phase resets a head occupant that
has reached the segment length to position `0`. -/
theorem position_not_clamped :
    (∀ (veh : Vehicle) (lead : Option Vehicle) (dt : ℚ), 0 ≤ dt → 0 ≤ veh.v →
      ((lead = none → veh.x ≤ (Vehicle.update veh lead dt).x) ∧
       (∀ ld, lead = some ld → veh.x ≤ (Vehicle.update veh lead dt).x ∨
          (Vehicle.update veh lead dt).x = ld.x - ld.l - veh.s0))) ∧
    (∀ (st : Simulation) (k vid : ℕ) (r : List ℕ),
      (st.segments.getD k defSeg).vehicles = vid :: r →
      (st.segments.getD k defSeg).length ≤ (st.vehicles vid).x →
      ((transSeg st k).vehicles vid).x = 0) := by
  constructor
  · intro veh lead dt hdt hv
    constructor
    · rintro rfl
      have := kinematicX_ge veh dt hdt hv
      simpa [Vehicle.update] using this
    · rintro ld rfl
      by_cases h : kinematicX veh dt > ld.x - ld.l - veh.s0
      · right
        simp [Vehicle.update, if_pos h]
      · left
        have h1 := kinematicX_ge veh dt hdt hv
        have h2 : (Vehicle.update veh (some ld) dt).x = kinematicX veh dt := by
          simp [Vehicle.update, if_neg h]
        rw [h2]
        exact h1
  · intro st k vid r hq hx
    unfold transSeg
    simp only [hq, List.isEmpty_cons, List.headD_cons]
    rw [if_neg (by simp)]
    rw [if_pos hx]
    simp only [laneLoop_x, setVeh_same]

/-- Witness for the amended C5: a leaderless update never moves backwards, and
a head past the segment end is reset to `0` by the transition phase. -/
theorem position_not_clamped_witness :
    (w5veh.x ≤ (Vehicle.update w5veh none 1).x) ∧
    ((transSeg w5sim 0).vehicles 3).x = 0 :=
  ⟨(position_not_clamped.1 w5veh none 1 (by norm_num)
      (by norm_num [w5veh, defVehicle])).1 rfl,
   position_not_clamped.2 w5sim 0 3 []
     (by norm_num [w5sim])
     (by norm_num [w5sim, w5veh, defVehicle])⟩

/-- Claim C5, counterexample: after one full `Simulation.update`, the follower
(id 1) sits at position `-5`, outside `[0, 10]` — the safety clamp pushed it
to the leader boundary `1 - 4 - 2 = -5`; no clamp to the segment interval
exists. -/
theorem position_range_refuted :
    ((Simulation.update c5sim).vehicles 1).x = -5 ∧ ¬(0 : ℚ) ≤ -5 := by
  constructor
  · norm_num [Simulation.update, dynPhase, dynSegment, dynFollow, setVeh, transPhase,
      transSeg, laneLoop, laneLoopStep, genPhase, Vehicle.update, kinematicX, kinematicV,
      projectedV, c5sim, c5veh0, c5veh1, defVehicle, defSeg, List.getD,
      List.range_succ]
  · norm_num

/-- Claim C2 (code bug): after one `Simulation.update` on a state whose
vehicle 7 has the two-segment itinerary `[0, 1]` and has reached the end of
segment 0, the code records `arrival_time = some 0` and appends to the
arrivals log even though the itinerary is not exhausted (the vehicle moves on
to segment 1, `current_road_index = 1 < 2 = path.length`). -/
theorem arrival_recorded_midroute :
    ((Simulation.update c2sim).vehicles 7).arrival_time = some 0 ∧
    ((Simulation.update c2sim).vehicles 7).current_road_index = 1 ∧
    ((Simulation.update c2sim).vehicles 7).path = [0, 1] ∧
    (Simulation.update c2sim).arrivals = [0] := by
  refine ⟨?_, ?_, ?_, ?_⟩ <;>
    norm_num [Simulation.update, dynPhase, dynSegment, dynFollow, setVeh, transPhase,
      transSeg, laneLoop, laneLoopStep, genPhase, setSegQueue, appendVeh,
      Vehicle.update, kinematicX, kinematicV, projectedV, c2sim, c2veh, defVehicle,
      defSeg, List.getD, List.range_succ]

theorem bisect_spec (f : ℚ → ℚ) (L eps del : ℚ)
    (a : ℚ)
    (hmod : ∀ x y : ℚ, a ≤ x → x ≤ y → y ≤ 1 → y - x ≤ del → |f y - f x| ≤ eps) :
    ∀ (n : ℕ) (lo hi : ℚ), a ≤ lo → lo ≤ hi → hi ≤ 1 → f lo ≤ L → L ≤ f hi →
      hi - lo ≤ 2 ^ n * del →
      ∃ t, bisect f L eps (n + 1) lo hi = some t ∧ |f t - L| ≤ eps ∧ lo ≤ t ∧ t ≤ hi := by
  intro n
  induction n with
  | zero =>
    intro lo hi halo hlohi hhi1 hflo hfhi hspan
    rw [pow_zero, one_mul] at hspan
    have hml : lo ≤ (lo + hi) / 2 := by linarith
    have hmh : (lo + hi) / 2 ≤ hi := by linarith
    have hcase : |f ((lo + hi) / 2) - L| ≤ eps := by
      rcases le_or_lt L (f ((lo + hi) / 2)) with hge | hlt
      · rw [abs_of_nonneg (by linarith)]
        have hm := hmod lo ((lo + hi) / 2) halo hml (le_trans hmh hhi1) (by linarith)
        have h2 : f ((lo + hi) / 2) - f lo ≤ eps := le_trans (le_abs_self _) hm
        linarith
      · rw [abs_of_nonpos (by linarith)]
        have hm := hmod ((lo + hi) / 2) hi (le_trans halo hml) hmh hhi1 (by linarith)
        have h2 : f hi - f ((lo + hi) / 2) ≤ eps := le_trans (le_abs_self _) hm
        linarith
    refine ⟨(lo + hi) / 2, ?_, hcase, hml, hmh⟩
    show bisect f L eps 1 lo hi = some ((lo + hi) / 2)
    simp only [bisect]
    rw [if_neg (not_lt.mpr hcase)]
  | succ m ih =>
    intro lo hi halo hlohi hhi1 hflo hfhi hspan
    rw [pow_succ] at hspan
    by_cases hc : |f ((lo + hi) / 2) - L| > eps
    · by_cases hlt : f ((lo + hi) / 2) < L
      · have hrec := ih ((lo + hi) / 2) hi (by linarith) (by linarith) hhi1
          (le_of_lt hlt) hfhi (by linarith)
        obtain ⟨t, hbt, ht1, ht2, ht3⟩ := hrec
        refine ⟨t, ?_, ht1, by linarith, ht3⟩
        show bisect f L eps (m + 1 + 1) lo hi = some t
        simp only [bisect]
        rw [if_pos hc, if_pos hlt]
        exact hbt
      · have hrec := ih lo ((lo + hi) / 2) halo (by linarith) (by linarith)
          hflo (le_of_not_lt hlt) (by linarith)
        obtain ⟨t, hbt, ht1, ht2, ht3⟩ := hrec
        refine ⟨t, ?_, ht1, ht2, by linarith⟩
        show bisect f L eps (m + 1 + 1) lo hi = some t
        simp only [bisect]
        rw [if_pos hc, if_neg hlt]
        exact hbt
    · refine ⟨(lo + hi) / 2, ?_, le_of_not_lt hc, by linarith, by linarith⟩
      show bisect f L eps (m + 1 + 1) lo hi = some ((lo + hi) / 2)
      simp only [bisect]
      rw [if_neg hc]

/-- Claim C7: `find_t` returns `1` when the whole remaining arc length `f 1`
is short of the target; otherwise the bisection terminates (given fuel
covering the modulus of continuity of the arc-length integral `f`) at a
parameter whose integral is within `eps` of the target. -/
theorem find_t_spec (f : ℚ → ℚ) (a L eps del : ℚ) (n : ℕ)
    (ha : a ≤ 1) (hfa : f a ≤ L)
    (hmod : ∀ x y : ℚ, a ≤ x → x ≤ y → y ≤ 1 → y - x ≤ del → |f y - f x| ≤ eps)
    (hspan : 1 - a ≤ 2 ^ n * del) :
    (f 1 < L → find_t f a L eps (n + 1) = some 1) ∧
    (L ≤ f 1 → ∃ t, find_t f a L eps (n + 1) = some t ∧
      |f t - L| ≤ eps ∧ a ≤ t ∧ t ≤ 1) := by
  constructor
  · intro h
    unfold find_t
    rw [if_pos h]
  · intro h
    unfold find_t
    rw [if_neg (not_lt.mpr h)]
    exact bisect_spec f L eps del a hmod n a 1 le_rfl ha le_rfl hfa h hspan

/-- Witness for C7: the unit-speed integral `f t = t` on `[0, 1]`, target
`1/2`, tolerance `1/4`: the bisection returns a parameter within tolerance. -/
theorem find_t_spec_witness :
    ∃ t, find_t (fun x => x) 0 (1 / 2) (1 / 4) 3 = some t ∧
      |t - (1 / 2 : ℚ)| ≤ 1 / 4 ∧ (0 : ℚ) ≤ t ∧ t ≤ 1 :=
  (find_t_spec (fun x => x) 0 (1 / 2) (1 / 4) (1 / 4) 2 (by norm_num) (by norm_num)
    (fun x y _ hxy _ hd => by rw [abs_of_nonneg (by linarith)]; exact hd)
    (by norm_num)).2 (by norm_num)

theorem chooseLaneAux_spec (p : ℕ → Bool) :
    ∀ (n s ln : ℕ), chooseLaneAux p s n = some ln →
      p ln = true ∧ s ≤ ln ∧ ∀ k, s ≤ k → k < ln → p k = false := by
  intro n
  induction n with
  | zero =>
    intro s ln h
    exact absurd h (by simp [chooseLaneAux])
  | succ m ih =>
    intro s ln h
    rw [chooseLaneAux] at h
    by_cases hp : p s
    · rw [if_pos hp] at h
      have hs : s = ln := Option.some.inj h
      subst hs
      exact ⟨hp, le_rfl, fun k h1 h2 => absurd h2 (by omega)⟩
    · rw [if_neg hp] at h
      obtain ⟨h1, h2, h3⟩ := ih (s + 1) ln h
      refine ⟨h1, by omega, fun k hk1 hk2 => ?_⟩
      rcases Nat.eq_or_lt_of_le hk1 with he | hlt
      · subst he
        simpa using hp
      · exact h3 k (by omega) hk2

/-- Claim C10: when a generator tick fires and `chooseLane` selects lane `ln`,
the inserted vehicle is stored as the candidate with that lane and the current
departure time; `ln` is the lowest-index lane passing the space test; and the
selected lane's tail occupant, if any, is strictly farther than
`s0 + l` from the candidate's entry position. -/
theorem generator_spawn_gap (st : Simulation) (g : VehicleGenerator) (ln : ℕ)
    (hfire : g.next_spawn_time ≤ st.t)
    (hln : chooseLane st.vehicles
        (st.segments.getD (g.upcoming.path.headD 0) defSeg).vehicles
        (st.segments.getD (g.upcoming.path.headD 0) defSeg).num_lanes
        g.upcoming = some ln) :
    (VehicleGenerator.update st g).1.vehicles g.upcoming.id =
      { g.upcoming with lane := (ln : ℤ), departure_time := some st.t } ∧
    laneHasSpace st.vehicles
      (st.segments.getD (g.upcoming.path.headD 0) defSeg).vehicles
      g.upcoming (ln : ℤ) = true ∧
    (∀ k : ℕ, k < ln →
      laneHasSpace st.vehicles
        (st.segments.getD (g.upcoming.path.headD 0) defSeg).vehicles
        g.upcoming (k : ℤ) = false) ∧
    (g.upcoming.x = 0 → ∀ tail,
      (laneVehicles st.vehicles
        (st.segments.getD (g.upcoming.path.headD 0) defSeg).vehicles
        (ln : ℤ)).getLast? = some tail →
      g.upcoming.s0 + g.upcoming.l < tail.x - g.upcoming.x) := by
  obtain ⟨hsp, _, hmin⟩ := chooseLaneAux_spec
    (fun l => laneHasSpace st.vehicles
      (st.segments.getD (g.upcoming.path.headD 0) defSeg).vehicles g.upcoming (l : ℤ))
    ((st.segments.getD (g.upcoming.path.headD 0) defSeg).num_lanes) 0 ln hln
  refine ⟨?_, hsp, fun k hk => hmin k (Nat.zero_le k) hk, ?_⟩
  · have hveh : (VehicleGenerator.update st g).1.vehicles =
        setVeh st.vehicles g.upcoming.id
          { g.upcoming with lane := (ln : ℤ), departure_time := some st.t } := by
      simp only [VehicleGenerator.update, if_pos hfire, hln, Simulation.add_vehicle]
      split <;> rfl
    rw [hveh, setVeh_same]
  · intro hx0 tail htail
    have h2 := hsp
    unfold laneHasSpace at h2
    rw [htail] at h2
    have := of_decide_eq_true h2
    rw [hx0, sub_zero]
    exact this

/-- Witness for C10: the candidate (gap requirement 8) skips lane 0, whose
tail sits at position 2, and is inserted into the empty lane 1. -/
theorem generator_spawn_gap_witness :
    (VehicleGenerator.update w10sim w10gen).1.vehicles w10cand.id =
      { w10cand with lane := ((1 : ℕ) : ℤ), departure_time := some w10sim.t } ∧
    laneHasSpace w10sim.vehicles
      (w10sim.segments.getD (w10cand.path.headD 0) defSeg).vehicles
      w10cand ((1 : ℕ) : ℤ) = true ∧
    laneHasSpace w10sim.vehicles
      (w10sim.segments.getD (w10cand.path.headD 0) defSeg).vehicles
      w10cand ((0 : ℕ) : ℤ) = false := by
  have h := generator_spawn_gap w10sim w10gen 1
    (by norm_num [w10gen, w10sim])
    (by norm_num [chooseLane, chooseLaneAux, laneHasSpace, laneVehicles, w10sim,
      w10gen, w10cand, w10tail, w10seg, defVehicle, defSeg, List.getD, List.filter,
      show ((0 : ℤ) == (1 : ℤ)) = false from rfl,
      show ((0 : ℤ) == (0 : ℤ)) = true from rfl])
  exact ⟨h.1, h.2.1, h.2.2.1 0 (by norm_num)⟩
